import Mathlib

/-
Verification of the soss SystemHandle plugin contract
(src/packages/core/include/soss/SystemHandle.hpp).

The repository ships only the abstract interface: every operation of the
contract is a pure-virtual member, and the reference behaviour an adapter
must implement is given by the specification text.  The development below
therefore embeds the data model declared in the header directly, and models
the behaviour of each contract operation from the specification's words,
as an explicit-state reference implementation.  Each such definition is
marked `Modelled from the spec:` in its doc comment and names what is
missing from the sources.
-/

namespace Soss

/-- Embeds `xtypes::DynamicType` as used by SystemHandle.hpp: per the data
model, type identity is established purely by name equality, so a descriptor
is its qualified name. -/
structure DynamicType where
  name : String
deriving DecidableEq, Repr

/-- Embeds `xtypes::DynamicData`: a runtime value tagged with a
TypeDescriptor.  The payload content is opaque to this layer and is embedded
as a natural number. -/
structure DynamicData where
  type : DynamicType
  payload : Nat
deriving DecidableEq, Repr

/-- Embeds `RequiredTypes` (SystemHandle.hpp lines 51-55): a set of message
type names and a set of service type names.  The C++ `std::set` fields are
embedded as lists of names. -/
structure RequiredTypes where
  messages : List String
  services : List String
deriving DecidableEq, Repr

/-- Embeds `TypeRegistry` (SystemHandle.hpp line 71): a map from type name
to its dynamic type descriptor, as an association list. -/
abbrev TypeRegistry := List (String × DynamicType)

/-- Embeds `std::shared_ptr<void> call_handle`: an opaque correlation token
for one in-flight service call, embedded as a natural number minted by the
client proxy. -/
abbrev CallHandle := Nat

/-! ## Adapter (SystemHandle) liveness and polling -/

/-- Modelled from the spec: a unit of queued transport work that one
`spin_once` services — either an inbound message to deliver to callbacks, or
a transport fault that turns the adapter non-live.  The concrete transport
is absent from the sources (only the pure-virtual interface exists). -/
inductive WorkItem where
  | deliver (message : DynamicData)
  | fault
deriving DecidableEq, Repr

/-- Modelled from the spec: the runtime state of a configured adapter — the
liveness flag read by `okay`, the queue of transport work pending for
`spin_once`, and the log of messages delivered to registered callbacks.  The
concrete adapter state is absent from the sources. -/
structure AdapterState where
  alive : Bool
  inbox : List WorkItem
  delivered : List DynamicData
deriving DecidableEq, Repr

/-- Modelled from the spec: `okay()` (SystemHandle.hpp lines 98-99) is a
pure liveness query; its value is the adapter's liveness flag. -/
def okay (s : AdapterState) : Bool :=
  s.alive

/-- Modelled from the spec: calling `okay()` as an operation on the adapter
state: it reads the liveness flag and performs no state change. -/
def okayQuery (s : AdapterState) : AdapterState × Bool :=
  (s, s.alive)

/-- Embeds `operator bool` (SystemHandle.hpp line 102): the implicit
conversion returns `okay()`. -/
def operatorBool (s : AdapterState) : Bool :=
  okay s

/-- Modelled from the spec: `spin_once()` (SystemHandle.hpp lines 104-108)
performs one non-blocking unit of transport work — delivering one queued
inbound message to the registered callbacks, or absorbing one transport
fault (after which the adapter is no longer live) — and returns whether the
adapter is still working.  The concrete implementation is absent from the
sources (the member is pure virtual). -/
def spin_once (s : AdapterState) : AdapterState × Bool :=
  if s.alive then
    match s.inbox with
    | [] => (s, true)
    | WorkItem.deliver d :: rest =>
        (⟨true, rest, s.delivered ++ [d]⟩, true)
    | WorkItem.fault :: rest =>
        (⟨false, rest, s.delivered⟩, false)
  else
    (s, false)

/-- Modelled from the spec: one command of the router's polling loop toward
a single adapter — either invoke `spin_once` or query `okay`.  The router is
an external collaborator specified only by its contract. -/
inductive RouterCmd where
  | spin
  | queryOkay
deriving DecidableEq, Repr

/-- Modelled from the spec: the adapter state reached after the router
issues a schedule of polling commands. -/
def runSched (s : AdapterState) : List RouterCmd → AdapterState
  | [] => s
  | RouterCmd.spin :: rest => runSched (spin_once s).1 rest
  | RouterCmd.queryOkay :: rest => runSched (okayQuery s).1 rest

/-- Modelled from the spec: the router's spin loop over one adapter.  The
router invokes `spin_once` only if the adapter's `configure` succeeded and
`okay()` currently holds; otherwise the adapter is treated as removed from
the routing table.  Returns the list of adapter states at which `spin_once`
was invoked, together with the final state.  The router is an external
collaborator specified only by its contract. -/
def routerLoop (cfgOk : Bool) (s : AdapterState) : Nat → List AdapterState × AdapterState
  | 0 => ([], s)
  | Nat.succ n =>
      if cfgOk && okay s then
        let next := routerLoop cfgOk (spin_once s).1 n
        (s :: next.1, next.2)
      else
        ([], s)

/-! ## configure -/

/-- Modelled from the spec: what an adapter's middleware can supply
natively — the set of type names it supports and the descriptor it
contributes for each supported name.  Absent from the sources (only the
pure-virtual `configure` declaration exists). -/
structure MiddlewareCaps where
  supported : List String
  descriptorOf : String → DynamicType

/-- Modelled from the spec: the registration pass of `configure`
(SystemHandle.hpp lines 93-96): walk the required names and register into
the registry a descriptor for every name the middleware supplies
natively. -/
def registerTypes (caps : MiddlewareCaps) : List String → TypeRegistry → TypeRegistry
  | [], reg => reg
  | n :: rest, reg =>
      registerTypes caps rest
        (if n ∈ caps.supported then (n, caps.descriptorOf n) :: reg else reg)

/-- Embeds the set of names an adapter is required to support: the message
names together with the service names of a `RequiredTypes` value. -/
def requiredNames (types : RequiredTypes) : List String :=
  types.messages ++ types.services

/-- Modelled from the spec: `configure(types, configuration, type_registry)`
(SystemHandle.hpp lines 93-96) registers a descriptor for every required
name the middleware supplies natively and succeeds exactly when every
required name is supported.  The concrete implementation is absent from the
sources (the member is pure virtual); the yaml configuration node plays no
role in the modelled behaviour and is omitted. -/
def configure (caps : MiddlewareCaps) (types : RequiredTypes) (reg : TypeRegistry) :
    TypeRegistry × Bool :=
  (registerTypes caps (requiredNames types) reg,
   (requiredNames types).all (fun n => decide (n ∈ caps.supported)))

/-! ## Topic publisher / subscriber -/

/-- Modelled from the spec: the state of a publisher proxy obtained from
`advertise(topic_name, message_type, configuration)`: the topic and type it
is bound to, and the queue of values forwarded to the transport.  Absent
from the sources (only the pure-virtual `TopicPublisher` interface,
SystemHandle.hpp lines 153-167, exists). -/
structure TopicPublisherState where
  topic : String
  advertisedType : DynamicType
  outbox : List DynamicData
deriving DecidableEq, Repr

/-- Modelled from the spec: `TopicPublisher::publish(message)`
(SystemHandle.hpp line 164) forwards the value to the transport when its
descriptor equals the advertised type, and rejects it with a failure
otherwise (MismatchedType is rejected at the boundary, not forwarded). -/
def publish (p : TopicPublisherState) (message : DynamicData) :
    TopicPublisherState × Bool :=
  if message.type = p.advertisedType then
    ({ p with outbox := p.outbox ++ [message] }, true)
  else
    (p, false)

/-- Modelled from the spec: the state of one registered subscription
(SystemHandle.hpp lines 142-146): the topic name and message type it was
registered with, and the sequence of messages its callback has observed.
The callback is embedded as the recording of its argument. -/
structure SubscriptionState where
  topic : String
  messageType : DynamicType
  observed : List DynamicData
deriving DecidableEq, Repr

/-- Modelled from the spec: the transport delivers one inbound event (topic
name and data); the subscription's callback is invoked exactly when the
event matches the registered topic name and message type. -/
def deliverOne (sub : SubscriptionState) (ev : String × DynamicData) : SubscriptionState :=
  if ev.1 = sub.topic ∧ ev.2.type = sub.messageType then
    { sub with observed := sub.observed ++ [ev.2] }
  else
    sub

/-- Modelled from the spec: the subscription after the transport delivers a
sequence of inbound events in transport delivery order. -/
def deliverAll (sub : SubscriptionState) (events : List (String × DynamicData)) :
    SubscriptionState :=
  events.foldl deliverOne sub

/-! ## Service client proxy and call correlation -/

/-- Modelled from the spec: the state of a service client proxy — the
correlation table mapping each in-flight CallHandle to its reply-routing
context, the counter minting fresh handles, the log of responses routed
back to original callers, and the diagnostic count of dropped deliveries
for unknown or already-resolved handles.  Absent from the sources (only
the pure-virtual `ServiceClient` interface, SystemHandle.hpp lines
204-230, exists). -/
structure ServiceClientState where
  table : List (CallHandle × Nat)
  nextHandle : CallHandle
  deliveries : List (CallHandle × DynamicData)
  droppedCount : Nat
deriving DecidableEq, Repr

/-- Modelled from the spec: a client proxy accepting an inbound request
(the `create_client_proxy` callback path, SystemHandle.hpp lines 262-266):
it synthesizes a fresh CallHandle, inserts the handle with its
reply-routing context into the correlation table, and hands the handle
out. -/
def acceptRequest (s : ServiceClientState) (ctx : Nat) : ServiceClientState × CallHandle :=
  ({ s with
      table := (s.nextHandle, ctx) :: s.table,
      nextHandle := s.nextHandle + 1 },
   s.nextHandle)

/-- Modelled from the spec: `ServiceClient::receive_response(call_handle,
response)` (SystemHandle.hpp lines 225-227).  A known handle is resolved:
its correlation entry is removed and the response is routed back to the
original caller.  An unknown, expired or already-resolved handle is
silently dropped with a diagnostic, never treated as fatal.  The concrete
implementation is absent from the sources (the member is pure virtual). -/
def receive_response (s : ServiceClientState) (call_handle : CallHandle)
    (response : DynamicData) : ServiceClientState :=
  match s.table.lookup call_handle with
  | some _ =>
      { s with
          table := s.table.filter (fun e => decide (e.1 ≠ call_handle)),
          deliveries := s.deliveries ++ [(call_handle, response)] }
  | none =>
      { s with droppedCount := s.droppedCount + 1 }

/-- Modelled from the spec: one event in the life of a client proxy —
either an inbound request arrives (minting a handle), or some thread
delivers a response for a handle. -/
inductive ClientOp where
  | request (ctx : Nat)
  | respond (h : CallHandle) (response : DynamicData)
deriving DecidableEq, Repr

/-- Modelled from the spec: the effect of one client-proxy event on the
proxy state. -/
def clientStep (s : ServiceClientState) : ClientOp → ServiceClientState
  | ClientOp.request ctx => (acceptRequest s ctx).1
  | ClientOp.respond h r => receive_response s h r

/-- Modelled from the spec: an execution of the client proxy — any
interleaving of inbound requests and response deliveries, applied in
order. -/
def clientRun (s : ServiceClientState) : List ClientOp → ServiceClientState
  | [] => s
  | op :: rest => clientRun (clientStep s op) rest

/-- The client proxy's state at creation: empty correlation table, no
deliveries, no drops. -/
def initialClient : ServiceClientState :=
  ⟨[], 0, [], 0⟩

/-! ## Service provider proxy -/

/-- Modelled from the spec: the state of a service provider proxy — the
queue of calls accepted by `call_service` but not yet finished by the
middleware, and the log of `receive_response` invocations the provider has
made on the client.  Absent from the sources (only the pure-virtual
`ServiceProvider` interface, SystemHandle.hpp lines 270-298, exists). -/
structure ServiceProviderState where
  pending : List (CallHandle × DynamicData)
  invoked : List (CallHandle × DynamicData)
deriving DecidableEq, Repr

/-- Modelled from the spec: the response the reference provider's service
computes for a request on success — the request echoed back (its content is
opaque to this layer). -/
def serviceResponse (request : DynamicData) : DynamicData :=
  request

/-- Modelled from the spec: the synthetic failure response a provider
delivers when the underlying service call fails. -/
def errorResponse : DynamicData :=
  ⟨⟨"soss_error"⟩, 0⟩

/-- Modelled from the spec: `ServiceProvider::call_service(request, client,
call_handle)` (SystemHandle.hpp lines 292-295) is non-blocking: it only
enqueues the call for the middleware and invokes nothing on the client
synchronously.  The concrete implementation is absent from the sources
(the member is pure virtual). -/
def call_service (s : ServiceProviderState) (request : DynamicData)
    (call_handle : CallHandle) : ServiceProviderState :=
  { s with pending := s.pending ++ [(call_handle, request)] }

/-- Modelled from the spec: the provider's middleware finishes the oldest
pending call, successfully or not, and the provider invokes
`client.receive_response` with that call's handle — passing the service's
response on success and a synthetic failure response otherwise. -/
def completeOne (s : ServiceProviderState) (success : Bool) : ServiceProviderState :=
  match s.pending with
  | [] => s
  | (h, req) :: rest =>
      ⟨rest, s.invoked ++ [(h, if success then serviceResponse req else errorResponse)]⟩

/-- Modelled from the spec: one event in the life of a provider proxy —
either the router invokes `call_service`, or the middleware finishes one
pending call (with a success flag). -/
inductive ProviderOp where
  | call (h : CallHandle) (request : DynamicData)
  | complete (success : Bool)
deriving DecidableEq, Repr

/-- Modelled from the spec: the effect of one provider-proxy event on the
proxy state. -/
def providerStep (s : ServiceProviderState) : ProviderOp → ServiceProviderState
  | ProviderOp.call h req => call_service s req h
  | ProviderOp.complete ok => completeOne s ok

/-- Modelled from the spec: an execution of the provider proxy — any
interleaving of `call_service` invocations and middleware completions,
applied in order. -/
def providerRun (s : ServiceProviderState) : List ProviderOp → ServiceProviderState
  | [] => s
  | op :: rest => providerRun (providerStep s op) rest

/-- The provider proxy's state at creation: nothing pending, nothing
invoked. -/
def initialProvider : ServiceProviderState :=
  ⟨[], []⟩

/-- How many times an execution invokes `call_service` with a given
handle. -/
def callCount (h : CallHandle) (ops : List ProviderOp) : Nat :=
  ops.countP (fun op =>
    match op with
    | ProviderOp.call h' _ => h' == h
    | ProviderOp.complete _ => false)

/-- How many `receive_response` invocations a provider has made with a given
handle. -/
def invokedCount (h : CallHandle) (s : ServiceProviderState) : Nat :=
  (s.invoked.map Prod.fst).count h

/-- How many calls with a given handle are still pending in a provider. -/
def pendingCount (h : CallHandle) (s : ServiceProviderState) : Nat :=
  (s.pending.map Prod.fst).count h

/-- The correlation invariant of a client proxy: every in-flight handle and
every delivered handle is older than the minting counter, no handle is
delivered twice, and a delivered handle is no longer in the correlation
table. -/
def ClientInv (s : ServiceClientState) : Prop :=
  (∀ e ∈ s.table, e.1 < s.nextHandle)
  ∧ (∀ d ∈ s.deliveries, d.1 < s.nextHandle)
  ∧ (s.deliveries.map Prod.fst).Nodup
  ∧ (∀ d ∈ s.deliveries, s.table.lookup d.1 = none)

/-- A concrete sample message used by the evaluation witnesses. -/
def sampleData : DynamicData :=
  ⟨⟨"PoseT"⟩, 1⟩

/-- A concrete live adapter with an empty inbox, used by the evaluation
witnesses. -/
def sampleAdapter : AdapterState :=
  ⟨true, [], []⟩

/-- A concrete publisher proxy bound to topic "/pose" of type PoseT, used by
the evaluation witnesses. -/
def samplePublisher : TopicPublisherState :=
  ⟨"/pose", ⟨"PoseT"⟩, []⟩

/-- A concrete message whose descriptor differs from PoseT, used by the
evaluation witnesses. -/
def mismatchedData : DynamicData :=
  ⟨⟨"OtherT"⟩, 7⟩

/-- A concrete middleware capability set supporting only PoseT, used by the
evaluation witnesses. -/
def sampleCaps : MiddlewareCaps :=
  ⟨["PoseT"], fun n => ⟨n⟩⟩

/-- A concrete required-type set asking for PoseT messages and an OtherT
service, used by the evaluation witnesses. -/
def sampleRequired : RequiredTypes :=
  ⟨["PoseT"], ["OtherT"]⟩

/-- A concrete publish sequence of three PoseT values, used by the
evaluation witnesses. -/
def samplePoses : List DynamicData :=
  [⟨⟨"PoseT"⟩, 1⟩, ⟨⟨"PoseT"⟩, 2⟩, ⟨⟨"PoseT"⟩, 3⟩]

/-!
## Theorems
-/

/-- C6: for every adapter state, the boolean returned by `spin_once()`
equals the value a subsequent call to `okay()` would return. -/
theorem spin_once_returns_okay (s : AdapterState) :
    (spin_once s).2 = okay (spin_once s).1 := by
  unfold spin_once okay
  cases hA : s.alive with
  | false => simp [hA]
  | true =>
    simp only [if_true]
    cases s.inbox with
    | nil => simp [hA]
    | cons w rest => cases w <;> simp

/-- C10: the implicit boolean conversion operator of `SystemHandle` returns
exactly the value of `okay()` in every state. -/
theorem operator_bool_equals_okay (s : AdapterState) :
    operatorBool s = okay s :=
  rfl

/-- C9: `okay()` is a pure query: invoking it returns the state unchanged,
erasing all `okay` queries from a router schedule leaves the adapter state
reached unchanged, and two consecutive queries with no state change in
between return identical results. -/
theorem okay_pure_query (s : AdapterState) (cmds : List RouterCmd) :
    runSched s cmds = runSched s (cmds.filter (fun c => decide (c = RouterCmd.spin)))
    ∧ (okayQuery s).1 = s
    ∧ (okayQuery ((okayQuery s).1)).2 = (okayQuery s).2 := by
  refine ⟨?_, rfl, rfl⟩
  induction cmds generalizing s with
  | nil => rfl
  | cons c rest ih =>
    cases c with
    | spin => simpa [runSched, List.filter_cons] using ih (spin_once s).1
    | queryOkay => simpa [runSched, okayQuery, List.filter_cons] using ih s

/-- C5: the router invokes `spin_once` only on adapters whose `configure`
succeeded, and every state at which `spin_once` is invoked satisfies
`okay() = true` — so an adapter whose configure failed is never spun, and
once `okay()` is false no further `spin_once` occurs. -/
theorem spin_once_only_when_configured_and_okay (cfgOk : Bool) (s : AdapterState) (n : Nat) :
    (cfgOk = false → (routerLoop cfgOk s n).1 = [])
    ∧ (∀ t ∈ (routerLoop cfgOk s n).1, okay t = true) := by
  induction n generalizing s with
  | zero =>
    refine ⟨fun _ => rfl, ?_⟩
    intro t ht
    simp [routerLoop] at ht
  | succ n ih =>
    constructor
    · intro hc
      subst hc
      simp [routerLoop]
    · intro t ht
      unfold routerLoop at ht
      cases hg : (cfgOk && okay s) with
      | false =>
        rw [hg] at ht
        simp at ht
      | true =>
        rw [hg] at ht
        simp only [if_true] at ht
        rcases List.mem_cons.mp ht with h1 | h2
        · subst h1
          simp only [Bool.and_eq_true] at hg
          exact hg.2
        · exact (ih (spin_once s).1).2 t h2

/-- Evaluation witness for C5 at a concrete adapter: with failed
configuration no spin occurs, and the sample adapter is spun only while
live. -/
theorem spin_once_only_when_configured_and_okay_witness :
    (routerLoop false sampleAdapter 2).1 = [] ∧ okay sampleAdapter = true :=
  ⟨(spin_once_only_when_configured_and_okay false sampleAdapter 2).1 rfl,
   (spin_once_only_when_configured_and_okay true sampleAdapter 1).2 sampleAdapter
     (by simp [routerLoop, sampleAdapter, okay, spin_once])⟩

/-- C8: a message whose TypeDescriptor is not equal to the advertised type
is rejected by `publish` with a failure and is not forwarded: the publisher
state, in particular its outbox, is left unchanged. -/
theorem publish_rejects_mismatched_type (p : TopicPublisherState) (message : DynamicData)
    (h : message.type ≠ p.advertisedType) :
    (publish p message).2 = false ∧ (publish p message).1 = p := by
  unfold publish
  rw [if_neg h]
  exact ⟨rfl, rfl⟩

/-- Evaluation witness for C8 at a concrete mismatched message. -/
theorem publish_rejects_mismatched_type_witness :
    (publish samplePublisher mismatchedData).2 = false
    ∧ (publish samplePublisher mismatchedData).1 = samplePublisher :=
  publish_rejects_mismatched_type samplePublisher mismatchedData (by decide)

/-- Registration preserves an already-registered binding of a name to the
descriptor the middleware contributes for it. -/
theorem lookup_registerTypes_preserved (caps : MiddlewareCaps) (ns : List String)
    (reg : TypeRegistry) (n : String)
    (h : reg.lookup n = some (caps.descriptorOf n)) :
    (registerTypes caps ns reg).lookup n = some (caps.descriptorOf n) := by
  induction ns generalizing reg with
  | nil => exact h
  | cons m rest ih =>
    unfold registerTypes
    apply ih
    by_cases hm : m ∈ caps.supported
    · rw [if_pos hm]
      by_cases he : n = m
      · subst he
        simp [List.lookup]
      · have hbe : (n == m) = false := by
          simp [he]
        simp [List.lookup, hbe, h]
    · rw [if_neg hm]
      exact h

/-- Registration installs a binding for every required name the middleware
supports. -/
theorem lookup_registerTypes_mem (caps : MiddlewareCaps) (ns : List String)
    (reg : TypeRegistry) (n : String) (hsup : n ∈ caps.supported) (hmem : n ∈ ns) :
    (registerTypes caps ns reg).lookup n = some (caps.descriptorOf n) := by
  induction ns generalizing reg with
  | nil => cases hmem
  | cons m rest ih =>
    unfold registerTypes
    rcases List.mem_cons.mp hmem with he | ht
    · subst he
      rw [if_pos hsup]
      exact lookup_registerTypes_preserved caps rest _ n (by simp [List.lookup])
    · exact ih _ ht

/-- C7: `configure` registers into the registry a descriptor for every
required name the adapter's middleware supplies natively, and returns false
whenever some required name is unsupported. -/
theorem configure_registers_supported_required_types (caps : MiddlewareCaps)
    (types : RequiredTypes) (reg : TypeRegistry) :
    (∀ n ∈ requiredNames types, n ∈ caps.supported →
       (configure caps types reg).1.lookup n = some (caps.descriptorOf n))
    ∧ ((∃ n ∈ requiredNames types, n ∉ caps.supported) →
       (configure caps types reg).2 = false) := by
  constructor
  · intro n hmem hsup
    exact lookup_registerTypes_mem caps (requiredNames types) reg n hsup hmem
  · rintro ⟨n, hmem, hsup⟩
    show (requiredNames types).all (fun n => decide (n ∈ caps.supported)) = false
    cases hall : (requiredNames types).all (fun n => decide (n ∈ caps.supported)) with
    | false => rfl
    | true =>
      exfalso
      have := List.all_eq_true.mp hall n hmem
      simp only [decide_eq_true_eq] at this
      exact hsup this

/-- Evaluation witness for C7 at a concrete adapter: with capabilities
supporting only PoseT and required types asking for PoseT and OtherT,
configure registers PoseT and reports failure. -/
theorem configure_registers_supported_required_types_witness :
    (configure sampleCaps sampleRequired []).1.lookup "PoseT"
      = some (sampleCaps.descriptorOf "PoseT")
    ∧ (configure sampleCaps sampleRequired []).2 = false :=
  ⟨(configure_registers_supported_required_types sampleCaps sampleRequired []).1
      "PoseT" (by decide) (by decide),
   (configure_registers_supported_required_types sampleCaps sampleRequired []).2
      ⟨"OtherT", by decide, by decide⟩⟩

/-- The subscription callback observes exactly the matching events, in
transport delivery order: the observed sequence after a delivery run is the
previously observed sequence followed by the matching events' messages. -/
theorem subscription_observes_matching (sub : SubscriptionState)
    (events : List (String × DynamicData)) :
    (deliverAll sub events).observed
      = sub.observed
        ++ (events.filter
              (fun ev => decide (ev.1 = sub.topic ∧ ev.2.type = sub.messageType))).map
            Prod.snd := by
  induction events generalizing sub with
  | nil => simp [deliverAll]
  | cons ev rest ih =>
    show (deliverAll (deliverOne sub ev) rest).observed = _
    rw [ih (deliverOne sub ev)]
    unfold deliverOne
    by_cases h : ev.1 = sub.topic ∧ ev.2.type = sub.messageType
    · rw [if_pos h]
      simp [List.filter_cons, h]
    · rw [if_neg h]
      simp [List.filter_cons, h]

/-- C4: a registered subscription's callback is invoked exactly once per
matching message, in transport delivery order, with no duplication, drop or
reordering; in particular a fresh subscription on one topic that receives
the published sequence observes exactly that sequence. -/
theorem subscription_delivers_in_order (sub : SubscriptionState)
    (events : List (String × DynamicData)) (t : String) (ty : DynamicType)
    (ps : List DynamicData) :
    ((deliverAll sub events).observed
       = sub.observed
         ++ (events.filter
               (fun ev => decide (ev.1 = sub.topic ∧ ev.2.type = sub.messageType))).map
             Prod.snd)
    ∧ ((∀ p ∈ ps, p.type = ty) →
       (deliverAll ⟨t, ty, []⟩ (ps.map (fun p => (t, p)))).observed = ps) := by
  constructor
  · exact subscription_observes_matching sub events
  · intro hall
    rw [subscription_observes_matching]
    have hfil : (ps.map (fun p => (t, p))).filter
        (fun ev => decide (ev.1 = t ∧ ev.2.type = ty)) = ps.map (fun p => (t, p)) := by
      rw [List.filter_eq_self]
      intro a ha
      rcases List.mem_map.mp ha with ⟨p, hp, rfl⟩
      simp [hall p hp]
    simp only [List.nil_append]
    rw [hfil]
    simp

/-- Evaluation witness for C4: publishing three PoseT values on one topic
makes the subscriber observe exactly those three values in order. -/
theorem subscription_delivers_in_order_witness :
    (deliverAll ⟨"/pose", ⟨"PoseT"⟩, []⟩
        (samplePoses.map (fun p => ("/pose", p)))).observed = samplePoses :=
  (subscription_delivers_in_order ⟨"/pose", ⟨"PoseT"⟩, []⟩ [] "/pose" ⟨"PoseT"⟩
      samplePoses).2 (by decide)

/-- Removing every entry with a given key from an association list makes a
lookup of that key fail. -/
theorem lookup_filter_ne_self {β : Type} (l : List (Nat × β)) (h : Nat) :
    (l.filter (fun e => decide (e.1 ≠ h))).lookup h = none := by
  induction l with
  | nil => rfl
  | cons a t ih =>
    obtain ⟨a1, a2⟩ := a
    by_cases ha : a1 = h
    · simp only [List.filter_cons]
      rw [show (decide ((a1, a2).1 ≠ h)) = false by simp [ha]]
      exact ih
    · simp only [List.filter_cons]
      rw [show (decide ((a1, a2).1 ≠ h)) = true by simp [ha]]
      show (match h == a1 with
        | true => some a2
        | false => List.lookup h (t.filter (fun e => decide (e.1 ≠ h)))) = none
      rw [show (h == a1) = false by simp [Ne.symm ha]]
      exact ih

/-- Filtering an association list cannot make a failing lookup succeed. -/
theorem lookup_none_filter {β : Type} (l : List (Nat × β)) (p : Nat × β → Bool) (k : Nat)
    (h : l.lookup k = none) : (l.filter p).lookup k = none := by
  induction l with
  | nil => rfl
  | cons a t ih =>
    obtain ⟨a1, a2⟩ := a
    rw [List.lookup] at h
    cases hk : (k == a1) with
    | true =>
      rw [hk] at h
      cases h
    | false =>
      rw [hk] at h
      by_cases hp : p (a1, a2)
      · simp only [List.filter_cons]
        rw [show p (a1, a2) = true from hp]
        show (match k == a1 with
          | true => some a2
          | false => List.lookup k (t.filter p)) = none
        rw [hk]
        exact ih h
      · simp only [List.filter_cons]
        rw [show p (a1, a2) = false by simp [hp]]
        exact ih h

/-- A successful lookup exhibits a member of the association list. -/
theorem mem_of_lookup_some {β : Type} (l : List (Nat × β)) (k : Nat) (v : β)
    (h : l.lookup k = some v) : (k, v) ∈ l := by
  induction l with
  | nil => cases h
  | cons a t ih =>
    obtain ⟨a1, a2⟩ := a
    rw [List.lookup] at h
    cases hk : (k == a1) with
    | true =>
      rw [hk] at h
      have hk' : k = a1 := by simpa using hk
      have hv : a2 = v := by
        cases h
        rfl
      subst hk'
      subst hv
      exact List.mem_cons_self _ _
    | false =>
      rw [hk] at h
      exact List.mem_cons_of_mem _ (ih h)

/-- The correlation invariant holds for a freshly created client proxy. -/
theorem clientInv_initial : ClientInv initialClient := by
  refine ⟨?_, ?_, ?_, ?_⟩ <;> simp [ClientInv, initialClient]

/-- Every client-proxy event — accepting a request or receiving a
response — preserves the correlation invariant. -/
theorem clientInv_step (s : ServiceClientState) (op : ClientOp) (h : ClientInv s) :
    ClientInv (clientStep s op) := by
  obtain ⟨hT, hD, hN, hL⟩ := h
  cases op with
  | request ctx =>
    refine ⟨?_, ?_, ?_, ?_⟩
    · intro e he
      simp only [clientStep, acceptRequest] at he ⊢
      rcases List.mem_cons.mp he with he0 | hm
      · subst he0
        exact Nat.lt_succ_self _
      · exact Nat.lt_succ_of_lt (hT e hm)
    · intro d hd
      simp only [clientStep, acceptRequest] at hd ⊢
      exact Nat.lt_succ_of_lt (hD d hd)
    · exact hN
    · intro d hd
      simp only [clientStep, acceptRequest] at hd ⊢
      have hne : (d.1 == s.nextHandle) = false := by
        simp [Nat.ne_of_lt (hD d hd)]
      show (match d.1 == s.nextHandle with
        | true => some ctx
        | false => List.lookup d.1 s.table) = none
      rw [hne]
      exact hL d hd
  | respond hh r =>
    show ClientInv (receive_response s hh r)
    unfold receive_response
    cases hlk : s.table.lookup hh with
    | none => exact ⟨hT, hD, hN, hL⟩
    | some ctx =>
      refine ⟨?_, ?_, ?_, ?_⟩
      · intro e he
        exact hT e (List.mem_of_mem_filter he)
      · intro d hd
        rcases List.mem_append.mp hd with h1 | h2
        · exact hD d h1
        · have hmem := mem_of_lookup_some s.table hh ctx hlk
          have hd2 : d = (hh, r) := List.mem_singleton.mp h2
          subst hd2
          exact hT _ hmem
      · have hnotin : hh ∉ s.deliveries.map Prod.fst := by
          intro hin
          rcases List.mem_map.mp hin with ⟨d, hd, hfst⟩
          have := hL d hd
          rw [hfst] at this
          rw [this] at hlk
          cases hlk
        rw [List.map_append]
        simp only [List.map_cons, List.map_nil]
        rw [List.nodup_append]
        exact ⟨hN, List.nodup_singleton _, by simpa [List.disjoint_singleton] using hnotin⟩
      · intro d hd
        rcases List.mem_append.mp hd with h1 | h2
        · exact lookup_none_filter s.table _ d.1 (hL d h1)
        · have hd2 : d = (hh, r) := List.mem_singleton.mp h2
          subst hd2
          exact lookup_filter_ne_self s.table hh

/-- The correlation invariant holds after any execution of the client
proxy that starts in an invariant state. -/
theorem clientInv_run (s : ServiceClientState) (ops : List ClientOp) (h : ClientInv s) :
    ClientInv (clientRun s ops) := by
  induction ops generalizing s with
  | nil => exact h
  | cons op rest ih => exact ih _ (clientInv_step s op h)

/-- C2: in every execution of a client proxy, responses are delivered at
most once per CallHandle — the sequence of handles of routed-back responses
never repeats a handle. -/
theorem receive_response_at_most_once_per_handle (ops : List ClientOp) :
    ((clientRun initialClient ops).deliveries.map Prod.fst).Nodup :=
  (clientInv_run initialClient ops clientInv_initial).2.2.1

/-- C3: delivering a response for an unknown, expired or already-resolved
handle is dropped fail-soft — the whole state is unchanged except for a
diagnostic counter — and a second delivery with an already-resolved handle
changes neither the correlation table nor the delivery log. -/
theorem receive_response_unknown_handle_fail_soft (s : ServiceClientState)
    (h : CallHandle) (r r' : DynamicData) :
    (s.table.lookup h = none →
       receive_response s h r = { s with droppedCount := s.droppedCount + 1 })
    ∧ (receive_response (receive_response s h r) h r').table
        = (receive_response s h r).table
    ∧ (receive_response (receive_response s h r) h r').deliveries
        = (receive_response s h r).deliveries := by
  have hdrop : ∀ (t : ServiceClientState), t.table.lookup h = none →
      receive_response t h r' = { t with droppedCount := t.droppedCount + 1 } := by
    intro t ht
    unfold receive_response
    rw [ht]
  constructor
  · intro hu
    unfold receive_response
    rw [hu]
  · have hnone : (receive_response s h r).table.lookup h = none := by
      unfold receive_response
      cases hlk : s.table.lookup h with
      | none => exact hlk
      | some ctx => exact lookup_filter_ne_self s.table h
    rw [hdrop _ hnone]
    exact ⟨rfl, rfl⟩

/-- Evaluation witness for C3 at the freshly created proxy: an unknown
handle is dropped with only the diagnostic counter bumped. -/
theorem receive_response_unknown_handle_fail_soft_witness :
    receive_response initialClient 5 sampleData
      = { initialClient with droppedCount := initialClient.droppedCount + 1 } :=
  (receive_response_unknown_handle_fail_soft initialClient 5 sampleData sampleData).1 rfl

/-- Count conservation of the provider: across any execution, invocations
made plus calls still pending equals what was there initially plus the
`call_service` invocations of the execution, handle by handle. -/
theorem provider_count_conservation (h : CallHandle) (ops : List ProviderOp)
    (s : ServiceProviderState) :
    invokedCount h (providerRun s ops) + pendingCount h (providerRun s ops)
      = invokedCount h s + pendingCount h s + callCount h ops := by
  induction ops generalizing s with
  | nil => simp [providerRun, callCount]
  | cons op rest ih =>
    show invokedCount h (providerRun (providerStep s op) rest)
        + pendingCount h (providerRun (providerStep s op) rest) = _
    rw [ih (providerStep s op)]
    cases op with
    | call h' req =>
      simp only [providerStep, call_service, invokedCount, pendingCount, callCount,
        List.countP_cons, List.map_append, List.count_append, List.map_cons, List.map_nil,
        List.count_cons, List.count_nil]
      omega
    | complete ok =>
      cases hp : s.pending with
      | nil =>
        simp only [providerStep, completeOne, hp, callCount, List.countP_cons]
        simp [invokedCount, pendingCount, hp, callCount]
      | cons a t =>
        obtain ⟨a1, a2⟩ := a
        simp only [providerStep, completeOne, hp, invokedCount, pendingCount, callCount,
          List.countP_cons, List.map_append, List.count_append, List.map_cons, List.map_nil,
          List.count_cons, List.count_nil]
        simp only [Bool.false_eq_true, if_false]
        omega

/-- C1: `call_service` is non-blocking in the sense that it invokes nothing
on the client synchronously, and in every execution in which the middleware
finishes all accepted calls, `client.receive_response` is invoked exactly
as many times per handle as `call_service` was invoked with it — exactly
once for each call, whether the underlying service call succeeds or
fails. -/
theorem call_service_exactly_once_delivery (ops : List ProviderOp) (h : CallHandle)
    (s : ServiceProviderState) (request : DynamicData) :
    ((call_service s request h).invoked = s.invoked)
    ∧ ((providerRun initialProvider ops).pending = [] →
       ((providerRun initialProvider ops).invoked.map Prod.fst).count h
         = callCount h ops) := by
  constructor
  · rfl
  · intro hdone
    have hc := provider_count_conservation h ops initialProvider
    unfold invokedCount pendingCount at hc
    rw [hdone] at hc
    simpa [initialProvider] using hc

/-- Evaluation witness for C1 at a concrete execution: one call with handle
7 followed by one middleware completion drains the queue and yields exactly
one `receive_response` invocation with handle 7. -/
theorem call_service_exactly_once_delivery_witness :
    ((providerRun initialProvider
        [ProviderOp.call 7 sampleData, ProviderOp.complete true]).invoked.map
          Prod.fst).count 7
      = callCount 7 [ProviderOp.call 7 sampleData, ProviderOp.complete true] :=
  (call_service_exactly_once_delivery
      [ProviderOp.call 7 sampleData, ProviderOp.complete true] 7
      initialProvider sampleData).2 rfl

end Soss
